import Mathlib

/-!
Verification of the wine-cellar application (`src/app.js`, `src/unnamed/part_000`).

The source contains three concatenated revisions of `class WineCellar`.
We embed the functions the specification's claims are about:

* `updateDetailQuantity` (identical in all revisions),
* the v2 Firebase listener callback and `deleteCurrentWine` (echo suppression),
* the suppression-flag traces of the remote-writing mutations,
* v1 `mergeWines` (union-merge reconciliation),
* v1/v3 `loadWines` (local-cache load),
* v2 `deleteWineFromFirebase` (point delete with verification re-read),
* v2 `confirmArchive` / `pushToArchive` / `deleteFromArchive` /
  `restoreWineFromArchive` (archive lifecycle).

Timestamps (`addedAt`, `archivedAt`, ISO strings compared through `Date`)
are modelled as natural numbers; record ids are strings; `quantity` is an
integer because the quantity-adjustment code adds a signed delta to it.
-/

/-- A catalog record (an active wine), per the object literals built in
`addWine` / `restoreWineFromArchive` in `src/app.js`. -/
structure Wine where
  id : String
  name : String
  producer : String
  type : String
  year : Nat
  region : String
  grape : String
  boldness : Nat
  tannins : Nat
  acidity : Nat
  price : Option Nat
  quantity : Int
  store : String
  notes : String
  image : Option String
  addedAt : Nat
deriving DecidableEq, Repr

/-- An archive record: built by `confirmArchive` as `{...wine, rating, rebuy,
archiveNotes, archivedAt}` — the spread copies every catalog field and the
four archive fields are added. -/
structure ArchivedWine extends Wine where
  rating : Nat
  rebuy : Option String
  archiveNotes : Option String
  archivedAt : Nat
deriving DecidableEq, Repr

/-! ## Quantity adjustment (`updateDetailQuantity`)

```js
updateDetailQuantity(change) {
    const wine = this.wines.find(w => w.id === this.currentWineId);
    if (!wine) return;
    const newQty = wine.quantity + change;
    if (newQty < 1) return;
    wine.quantity = newQty;
    ...
}
```
`find` returns the first matching object and the assignment mutates that
object in place, so the embedding replaces the first record whose id
matches. -/

/-- Set the quantity of the first record with the given id (the in-place
mutation of the object returned by `find`). -/
def setQuantityFirst : List Wine → String → Int → List Wine
  | [], _, _ => []
  | w :: ws, cid, q =>
    if w.id = cid then { w with quantity := q } :: ws
    else w :: setQuantityFirst ws cid q

/-- `updateDetailQuantity` from `src/app.js` (lines 1117, 2495, 3895 and
`src/unnamed/part_000` line 1108 — all four copies identical). -/
def updateDetailQuantity (wines : List Wine) (currentWineId : String)
    (change : Int) : List Wine :=
  match wines.find? (fun w => w.id = currentWineId) with
  | none => wines
  | some wine =>
    let newQty := wine.quantity + change
    if newQty < 1 then wines
    else setQuantityFirst wines currentWineId newQty

/-- A sequence of detail-quantity adjustments: each operation is a target id
together with the delta (`+1` from the increase button, `-1` from the
decrease button). -/
def applyQuantityOps (wines : List Wine) (ops : List (String × Int)) : List Wine :=
  ops.foldl (fun ws op => updateDetailQuantity ws op.1 op.2) wines

/-! ## Echo suppression: listener callback and local delete (v2) -/

/-- Descending-by-`addedAt` comparison used by every
`sort((a, b) => new Date(b.addedAt) - new Date(a.addedAt))` in the source. -/
def byAddedAtDesc (a b : Wine) : Prop := b.addedAt ≤ a.addedAt

instance : DecidableRel byAddedAtDesc := fun a b => inferInstanceAs (Decidable (_ ≤ _))

instance : IsTotal Wine byAddedAtDesc := ⟨fun a b => Nat.le_total b.addedAt a.addedAt⟩

instance : IsTrans Wine byAddedAtDesc := ⟨fun _ _ _ h h' => Nat.le_trans h' h⟩

/-- JavaScript's `Array.prototype.sort` is a stable sort; insertion sort with
the descending comparison models it. -/
def sortByAddedAtDesc (ws : List Wine) : List Wine :=
  List.insertionSort byAddedAtDesc ws

/-- The in-memory state relevant to echo suppression: the active collection
(`this.wines`, which is what gets rendered) and the `syncInProgress` flag. -/
structure AppState where
  wines : List Wine
  syncInProgress : Bool
deriving DecidableEq, Repr

/-- The wines `on('value')` callback installed by `setupFirebaseListener`
(v2, `src/app.js` lines 1405–1453): while `syncInProgress` is set it returns
immediately; otherwise the snapshot replaces the collection and is sorted
descending by `addedAt`. -/
def winesListenerCallback (s : AppState) (snapshotWines : List Wine) : AppState :=
  if s.syncInProgress then s
  else { s with wines := sortByAddedAtDesc snapshotWines }

/-- The synchronous prefix of `deleteCurrentWine` (v2, `src/app.js` lines
2645–2682): sets `syncInProgress = true`, removes the record from the local
array, and only a timeout 2000 ms later resets the flag — so within the
grace window the state is exactly this. -/
def deleteCurrentWineLocal (s : AppState) (wineIdToDelete : String) : AppState :=
  { syncInProgress := true
    wines := s.wines.filter (fun w => w.id ≠ wineIdToDelete) }

/-! ## Claim C1 -/

/-- Members of `setQuantityFirst` are old members or carry the new quantity. -/
theorem mem_setQuantityFirst {ws : List Wine} {cid : String} {q : Int} {w : Wine}
    (h : w ∈ setQuantityFirst ws cid q) : w ∈ ws ∨ w.quantity = q := by
  induction ws with
  | nil => simp [setQuantityFirst] at h
  | cons x xs ih =>
    by_cases hx : x.id = cid
    · simp only [setQuantityFirst, if_pos hx, List.mem_cons] at h
      rcases h with h | h
      · exact Or.inr (h ▸ rfl)
      · exact Or.inl (List.mem_cons_of_mem _ h)
    · simp only [setQuantityFirst, if_neg hx, List.mem_cons] at h
      rcases h with h | h
      · exact Or.inl (h ▸ List.mem_cons_self _ _)
      · rcases ih h with h' | h'
        · exact Or.inl (List.mem_cons_of_mem _ h')
        · exact Or.inr h'

/-- `setQuantityFirst` preserves the list of ids. -/
theorem map_id_setQuantityFirst (ws : List Wine) (cid : String) (q : Int) :
    (setQuantityFirst ws cid q).map Wine.id = ws.map Wine.id := by
  induction ws with
  | nil => rfl
  | cons x xs ih =>
    by_cases hx : x.id = cid
    · simp [setQuantityFirst, if_pos hx]
    · simp [setQuantityFirst, if_neg hx, ih]

/-- One quantity adjustment preserves `quantity ≥ 1`. -/
theorem updateDetailQuantity_inv {ws : List Wine} (cid : String) (c : Int)
    (hinv : ∀ w ∈ ws, 1 ≤ w.quantity) :
    ∀ w ∈ updateDetailQuantity ws cid c, 1 ≤ w.quantity := by
  unfold updateDetailQuantity
  cases hfind : ws.find? (fun w => w.id = cid) with
  | none => simpa using hinv
  | some wine =>
    simp only
    by_cases hq : wine.quantity + c < 1
    · simpa [if_pos hq] using hinv
    · intro w hw
      simp only [if_neg hq] at hw
      rcases mem_setQuantityFirst hw with h | h
      · exact hinv w h
      · rw [h]; omega

/-- One quantity adjustment preserves the ids of the collection. -/
theorem updateDetailQuantity_map_id (ws : List Wine) (cid : String) (c : Int) :
    (updateDetailQuantity ws cid c).map Wine.id = ws.map Wine.id := by
  unfold updateDetailQuantity
  cases ws.find? (fun w => w.id = cid) with
  | none => rfl
  | some wine =>
    simp only
    by_cases hq : wine.quantity + c < 1
    · rw [if_pos hq]
    · rw [if_neg hq, map_id_setQuantityFirst]

/-- C1. For every catalog record in the active collection, `quantity ≥ 1`
holds after any sequence of increment (`+1`) and decrement (`-1`) operations
through `updateDetailQuantity`; the collection's ids are unchanged (no
record is ever deleted), and a decrement that would take a quantity below 1
is a no-op. -/
theorem quantity_invariant (wines : List Wine) (ops : List (String × Int))
    (hinv : ∀ w ∈ wines, 1 ≤ w.quantity)
    (hops : ∀ op ∈ ops, op.2 = 1 ∨ op.2 = -1) :
    (∀ w ∈ applyQuantityOps wines ops, 1 ≤ w.quantity) ∧
    (applyQuantityOps wines ops).map Wine.id = wines.map Wine.id ∧
    (∀ cid w, wines.find? (fun w' => w'.id = cid) = some w →
      w.quantity + (-1) < 1 → updateDetailQuantity wines cid (-1) = wines) := by
  refine ⟨?_, ?_, ?_⟩
  · clear hops
    induction ops generalizing wines with
    | nil => simpa [applyQuantityOps] using hinv
    | cons op ops ih =>
      simpa [applyQuantityOps] using
        ih (updateDetailQuantity wines op.1 op.2)
          (updateDetailQuantity_inv op.1 op.2 hinv)
  · clear hinv hops
    induction ops generalizing wines with
    | nil => rfl
    | cons op ops ih =>
      calc (applyQuantityOps wines (op :: ops)).map Wine.id
          = (applyQuantityOps (updateDetailQuantity wines op.1 op.2) ops).map Wine.id := rfl
        _ = (updateDetailQuantity wines op.1 op.2).map Wine.id := ih _
        _ = wines.map Wine.id := updateDetailQuantity_map_id wines op.1 op.2
  · intro cid w hfind hq
    unfold updateDetailQuantity
    rw [hfind]
    simp only [if_pos hq]

/-- Concrete instance used by the witnesses below. -/
def sampleWine : Wine :=
  { id := "1700000000000", name := "Reserva", producer := "Bodega", type := "red"
    year := 2019, region := "Rioja", grape := "Tempranillo"
    boldness := 3, tannins := 3, acidity := 3, price := some 12
    quantity := 1, store := "Gall", notes := "", image := none
    addedAt := 1700000000000 }

/-- Witness for C1: a decrement at quantity 1 followed by an increment keeps
the invariant on a concrete one-record collection. -/
theorem quantity_invariant_witness :
    (∀ w ∈ [sampleWine], 1 ≤ w.quantity) ∧
    (∀ op ∈ [("1700000000000", (-1 : Int)), ("1700000000000", 1)],
      op.2 = 1 ∨ op.2 = -1) ∧
    (∀ w ∈ applyQuantityOps [sampleWine]
        [("1700000000000", (-1 : Int)), ("1700000000000", 1)], 1 ≤ w.quantity) ∧
    (applyQuantityOps [sampleWine]
        [("1700000000000", (-1 : Int)), ("1700000000000", 1)]).map Wine.id
      = [sampleWine].map Wine.id := by
  refine ⟨by decide, by decide, ?_, ?_⟩
  · exact (quantity_invariant [sampleWine] _ (by decide) (by decide)).1
  · exact (quantity_invariant [sampleWine] _ (by decide) (by decide)).2.1

/-! ## Claim C2 -/

/-- C2. After a local delete of record `X` (which sets the suppression flag
before anything else), an inbound snapshot that still contains `X` and
arrives while the flag is set is a no-op: the state is unchanged and `X` is
absent from the in-memory (rendered) collection. -/
theorem delete_then_snapshot_suppressed (s : AppState) (x : String)
    (snap : List Wine) (hx : ∃ w ∈ snap, w.id = x) :
    winesListenerCallback (deleteCurrentWineLocal s x) snap
        = deleteCurrentWineLocal s x ∧
    ∀ w ∈ (deleteCurrentWineLocal s x).wines, w.id ≠ x := by
  constructor
  · simp [winesListenerCallback, deleteCurrentWineLocal]
  · intro w hw
    have := List.of_mem_filter hw
    simpa using this

/-- Witness for C2 on a concrete state and snapshot containing the deleted
record. -/
theorem delete_then_snapshot_suppressed_witness :
    (∃ w ∈ [sampleWine], w.id = "1700000000000") ∧
    winesListenerCallback
        (deleteCurrentWineLocal ⟨[sampleWine], false⟩ "1700000000000") [sampleWine]
      = deleteCurrentWineLocal ⟨[sampleWine], false⟩ "1700000000000" ∧
    ∀ w ∈ (deleteCurrentWineLocal ⟨[sampleWine], false⟩ "1700000000000").wines,
      w.id ≠ "1700000000000" := by
  refine ⟨by decide, ?_, ?_⟩
  · exact (delete_then_snapshot_suppressed ⟨[sampleWine], false⟩ "1700000000000"
      [sampleWine] ⟨sampleWine, by decide⟩).1
  · exact (delete_then_snapshot_suppressed ⟨[sampleWine], false⟩ "1700000000000"
      [sampleWine] ⟨sampleWine, by decide⟩).2

/-! ## Claim C3: suppression-flag discipline of the remote-writing mutations

Each remote-writing mutation of the v2 revision is summarised by the
program-order sequence of its suppression-relevant effects:
`flagSet` (`this.syncInProgress = true`), `writeInitiated` (the remote call
is started), `writeResolved` (the `await` returns), and `flagCleared d`
(`this.syncInProgress = false`, executed `d` milliseconds after the
preceding event: `d = 0` for a synchronous clear, `d = 2000` for
`setTimeout(..., 2000)`). -/

inductive SyncEvent where
  | flagSet
  | writeInitiated
  | writeResolved
  | flagCleared (delayMs : Nat)
deriving DecidableEq, Repr

/-- `saveWinesToFirebase` (v2, lines 1502–1526): sets the flag, awaits the
full `set`, and clears the flag in `finally` — synchronously, 0 ms after the
write resolves. -/
def saveWinesToFirebaseEvents : List SyncEvent :=
  [.flagSet, .writeInitiated, .writeResolved, .flagCleared 0]

/-- `deleteCurrentWine` (v2, lines 2645–2682): sets the flag, awaits the
remote delete, and resets the flag in a `setTimeout(..., 2000)`. -/
def deleteCurrentWineEvents : List SyncEvent :=
  [.flagSet, .writeInitiated, .writeResolved, .flagCleared 2000]

/-- `pushWineToFirebase` (v2, lines 1455–1463): a point `set` that never
touches `syncInProgress`. -/
def pushWineToFirebaseEvents : List SyncEvent :=
  [.writeInitiated, .writeResolved]

/-- `pushToArchive` (v2, lines 1567–1577): a point `set` on the archive that
never touches `syncInProgress`. -/
def pushToArchiveEvents : List SyncEvent :=
  [.writeInitiated, .writeResolved]

/-- `deleteFromArchive` (v2, lines 1579–1589): a point `remove` on the
archive that never touches `syncInProgress`. -/
def deleteFromArchiveEvents : List SyncEvent :=
  [.writeInitiated, .writeResolved]

/-- Every remote-writing mutation of the v2 revision, by name. -/
def remoteWritingMutations : List (String × List SyncEvent) :=
  [("saveWinesToFirebase", saveWinesToFirebaseEvents),
   ("deleteCurrentWine", deleteCurrentWineEvents),
   ("pushWineToFirebase", pushWineToFirebaseEvents),
   ("pushToArchive", pushToArchiveEvents),
   ("deleteFromArchive", deleteFromArchiveEvents)]

/-- The trace sets the suppression flag strictly before initiating the
remote write. -/
def setsFlagBeforeWrite (t : List SyncEvent) : Bool :=
  match t.findIdx? (fun e => e = SyncEvent.flagSet),
      t.findIdx? (fun e => e = SyncEvent.writeInitiated) with
  | some i, some j => decide (i < j)
  | _, _ => false

/-- The delays of all flag-clearing events of a trace. -/
def clearDelays (t : List SyncEvent) : List Nat :=
  t.filterMap fun e => match e with
    | .flagCleared d => some d
    | _ => none

/-- The discipline the specification describes for a grace window of
`graceMs`: the flag is set before the write is initiated, the flag is
cleared, and every clear happens a strictly positive delay of at least
`graceMs` after the preceding event (never synchronously with the write
resolving). -/
def FollowsGateDiscipline (graceMs : Nat) (t : List SyncEvent) : Prop :=
  setsFlagBeforeWrite t = true ∧
  clearDelays t ≠ [] ∧
  ∀ d ∈ clearDelays t, graceMs ≤ d ∧ 0 < d

instance (graceMs : Nat) (t : List SyncEvent) :
    Decidable (FollowsGateDiscipline graceMs t) :=
  inferInstanceAs (Decidable (_ ∧ _ ∧ _))

/-- C3 as stated is false: `saveWinesToFirebase` is a remote-writing
mutation, it clears the suppression flag with delay 0 — immediately upon the
write call resolving — so it does not follow the grace-window discipline
(for a 1-second grace window, or any other). -/
theorem gate_discipline_cex :
    ("saveWinesToFirebase", saveWinesToFirebaseEvents) ∈ remoteWritingMutations ∧
    clearDelays saveWinesToFirebaseEvents = [0] ∧
    ¬ FollowsGateDiscipline 1000 saveWinesToFirebaseEvents := by
  refine ⟨by decide, by decide, ?_⟩
  intro h
  exact absurd (h.2.2 0 (by decide)).2 (by decide)

/-- C3 amended. Only `deleteCurrentWine` follows the set-before-write /
clear-after-grace-window discipline (with a 2000 ms trailing window);
`saveWinesToFirebase` sets the flag before the write but clears it
immediately (delay 0) when the write resolves; the point-write mutations
(`pushWineToFirebase`, `pushToArchive`, `deleteFromArchive`) never set the
flag at all. -/
theorem gate_discipline_amended :
    FollowsGateDiscipline 1000 deleteCurrentWineEvents ∧
    (setsFlagBeforeWrite saveWinesToFirebaseEvents = true ∧
      clearDelays saveWinesToFirebaseEvents = [0]) ∧
    setsFlagBeforeWrite pushWineToFirebaseEvents = false ∧
    setsFlagBeforeWrite pushToArchiveEvents = false ∧
    setsFlagBeforeWrite deleteFromArchiveEvents = false := by
  refine ⟨⟨by decide, by decide, ?_⟩, ⟨by decide, by decide⟩, by decide, by decide, by decide⟩
  intro d hd
  have : d = 2000 := by
    have : clearDelays deleteCurrentWineEvents = [2000] := by decide
    rw [this] at hd
    simpa using hd
  omega

/-! ## Claim C5: `loadWines` (v1 lines 223–228, v3 lines 3010–3015)

```js
loadWines() {
    const stored = localStorage.getItem('wineCellar');
    if (stored) {
        this.wines = JSON.parse(stored);
    }
}
```
The stored blob is either absent (`getItem` returned `null`), a string
`JSON.parse` rejects (it then throws a `SyntaxError`, and `loadWines` has no
`try`/`catch`, so the exception propagates to the caller), or a string that
parses to a collection. -/

inductive StoredBlob where
  | absent
  | corrupt (raw : String)
  | valid (wines : List Wine)
deriving DecidableEq, Repr

/-- `JSON.parse` on the stored string: throws on a corrupt blob, yields the
collection on a parsable one. (`absent` never reaches the parser because of
the `if (stored)` guard.) -/
def jsonParseWines : StoredBlob → Except String (List Wine)
  | .absent => .error "SyntaxError"
  | .corrupt _ => .error "SyntaxError"
  | .valid ws => .ok ws

/-- `loadWines`: `prev` is the collection before the call (`[]` at startup).
With no data the collection is left unchanged; otherwise the parse result is
assigned, and a parse failure propagates as an exception. -/
def loadWines (stored : StoredBlob) (prev : List Wine) : Except String (List Wine) :=
  match stored with
  | .absent => .ok prev
  | s => jsonParseWines s

/-- C5 as stated is false: on corrupt stored data, `loadWines` propagates
the `JSON.parse` exception to the caller instead of yielding an empty
collection. -/
theorem loadWines_corrupt_cex :
    loadWines (.corrupt "not a json document") [] = .error "SyntaxError" := rfl

/-- C5 amended. `loadWines` returns without an exception exactly when the
stored blob is not corrupt: absent data leaves the collection unchanged
(empty at startup), parsable data yields the parsed collection, and corrupt
(unparsable) data raises an uncaught parse exception to the caller. -/
theorem loadWines_amended (stored : StoredBlob) (prev : List Wine) :
    ((∃ l, loadWines stored prev = .ok l) ↔ ∀ raw, stored ≠ .corrupt raw) ∧
    loadWines .absent prev = .ok prev ∧
    (∀ ws, loadWines (.valid ws) prev = .ok ws) := by
  refine ⟨?_, rfl, fun ws => rfl⟩
  constructor
  · rintro ⟨l, hl⟩ raw rfl
    simp [loadWines, jsonParseWines] at hl
  · intro h
    cases stored with
    | absent => exact ⟨prev, rfl⟩
    | corrupt raw => exact absurd rfl (h raw)
    | valid ws => exact ⟨ws, rfl⟩

/-! ## Claim C6: `deleteWineFromFirebase` (v2, lines 1465–1500)

The remote store is asynchronous; what the function can observe of it is the
result of each awaited call. An execution either throws at some awaited call
(caught, returning `false`) or yields the two existence reads: `pre` from
the `once('value')` before `remove`, and `post` from the verification read
after it (when the first read found the record; otherwise no remove and no
verification read happen). -/

inductive RemoteOutcome where
  | throws
  | reads (pre post : Bool)
deriving DecidableEq, Repr

/-- The verification re-read confirmed the record absent. -/
def reReadConfirmsAbsent : RemoteOutcome → Bool
  | .throws => false
  | .reads _ post => !post

/-- `deleteWineFromFirebase` (v2): returns `false` when Firebase is not
enabled or unconfigured; returns `false` from the `catch` when a call
throws; otherwise, whether the record existed or not, returns `true` — the
verification read is performed and logged but its value is not consulted
for the return. -/
def deleteWineFromFirebase (firebaseEnabled hasDb hasUserId : Bool)
    (outcome : RemoteOutcome) : Bool :=
  if !firebaseEnabled || !hasDb || !hasUserId then false
  else
    match outcome with
    | .throws => false
    | .reads pre _post => if pre then true else true

/-- C6 as stated is false: on an execution where the verification re-read
still observes the record (eventual-consistency lag), the function
nevertheless returns `true`, so the returned boolean is not equivalent to
re-read-confirmed deletion. -/
theorem deleteWineFromFirebase_cex :
    deleteWineFromFirebase true true true (.reads true true) = true ∧
    reReadConfirmsAbsent (.reads true true) = false := by decide

/-- C6 amended. The returned boolean is `true` exactly when Firebase is
enabled and configured and no remote call threw — independent of what the
verification re-read observed. -/
theorem deleteWineFromFirebase_amended (enabled hasDb hasUser : Bool)
    (outcome : RemoteOutcome) :
    deleteWineFromFirebase enabled hasDb hasUser outcome = true ↔
      enabled = true ∧ hasDb = true ∧ hasUser = true ∧ outcome ≠ .throws := by
  cases enabled <;> cases hasDb <;> cases hasUser <;> cases outcome <;>
    simp [deleteWineFromFirebase]

/-! ## Claim C4: `mergeWines` (v1, `src/app.js` lines 119–146)

```js
mergeWines(firebaseWines) {
    const firebaseWinesMap = new Map(firebaseWines.map(w => [w.id, w]));
    const merged = new Map();
    firebaseWines.forEach(w => merged.set(w.id, w));
    this.wines.forEach(w => {
        if (!firebaseWinesMap.has(w.id)) {
            merged.set(w.id, w);
            this.pushWineToFirebase(w);
        }
    });
    this.wines = Array.from(merged.values());
    this.wines.sort((a, b) => new Date(b.addedAt) - new Date(a.addedAt));
    this.saveToLocalStorage();
}
```
A JavaScript `Map` preserves insertion order and `set` on an existing key
overwrites in place; `mapSet` models this on association lists. -/

/-- `Map.prototype.set`: overwrite in place if the key is present, append
otherwise. -/
def mapSet (m : List (String × Wine)) (k : String) (v : Wine) :
    List (String × Wine) :=
  if m.any (fun p => p.1 = k) then
    m.map (fun p => if p.1 = k then (k, v) else p)
  else m ++ [(k, v)]

/-- The outcome of `mergeWines`: the new in-memory collection, the wines
pushed to Firebase (the local-only ones, in local order), and what
`saveToLocalStorage` persisted. -/
structure MergeResult where
  wines : List Wine
  pushed : List Wine
  savedLocal : List Wine
deriving DecidableEq, Repr

/-- `mergeWines`: remote wins on id collision, local-only records are
appended and pushed to Firebase, the result is sorted descending by
`addedAt` and persisted locally as backup. -/
def mergeWines (localWines firebaseWines : List Wine) : MergeResult :=
  let firebaseIds := firebaseWines.map Wine.id
  let withRemote := firebaseWines.foldl (fun m w => mapSet m w.id w) []
  let merged := localWines.foldl
    (fun m w => if firebaseIds.contains w.id then m else mapSet m w.id w)
    withRemote
  let pushed := localWines.filter (fun w => ¬ firebaseIds.contains w.id)
  let sorted := sortByAddedAtDesc (merged.map Prod.snd)
  { wines := sorted, pushed := pushed, savedLocal := sorted }

/-- C4. Union-merge policy: for local collection `[A, B]` and remote
snapshot `[B', C]` where `B'` shares `B`'s id but is a different record and
the other ids are pairwise distinct, the merged collection is exactly the
records `B'`, `C`, `A` (a permutation of `[B', C, A]`), `A` alone is pushed
to the remote store, the output is sorted descending by `addedAt`, and the
merged result is what is persisted locally as backup. -/
theorem mergeWines_union_policy (A B B' C : Wine)
    (hBB' : B'.id = B.id) (hne : B' ≠ B)
    (hAB : A.id ≠ B.id) (hAC : A.id ≠ C.id) (hBC : B.id ≠ C.id) :
    (mergeWines [A, B] [B', C]).wines.Perm [B', C, A] ∧
    (mergeWines [A, B] [B', C]).pushed = [A] ∧
    List.Sorted byAddedAtDesc (mergeWines [A, B] [B', C]).wines ∧
    (mergeWines [A, B] [B', C]).savedLocal = (mergeWines [A, B] [B', C]).wines := by
  have hB'C : B'.id ≠ C.id := hBB' ▸ hBC
  have hAB' : A.id ≠ B'.id := hBB' ▸ hAB
  have hmerged :
      ([A, B].foldl
        (fun m w => if ([B', C].map Wine.id).contains w.id then m else mapSet m w.id w)
        ([B', C].foldl (fun m w => mapSet m w.id w) []))
      = [(B'.id, B'), (C.id, C), (A.id, A)] := by
    simp [mapSet, List.contains, hB'C, hAB', hAC, hAB, hBC, hBB']
    exact ⟨Ne.symm hAB, Ne.symm hAC⟩
  refine ⟨?_, ?_, ?_, rfl⟩
  · show (sortByAddedAtDesc _).Perm _
    rw [hmerged]
    exact List.perm_insertionSort byAddedAtDesc _
  · show List.filter _ _ = _
    simp [List.contains, hAB', hAB, hAC, hBB']
  · exact List.sorted_insertionSort byAddedAtDesc _

/-- Second concrete record for the C4 witness (same id as `sampleWine2`'s
remote counterpart). -/
def sampleWine2 : Wine :=
  { sampleWine with id := "1700000000001", name := "Chablis", type := "white"
                    addedAt := 1700000000001 }

/-- Remote counterpart of `sampleWine2`: same id, different fields. -/
def sampleWine2Remote : Wine :=
  { sampleWine2 with quantity := 4, notes := "edited elsewhere" }

/-- Remote-only record for the C4 witness. -/
def sampleWine3 : Wine :=
  { sampleWine with id := "1700000000002", name := "Barolo", addedAt := 1700000000002 }

/-- Witness for C4: on concrete records, the merge yields the permutation
of `[B', C, A]`, pushes exactly `A`, is sorted, and persists the result. -/
theorem mergeWines_union_policy_witness :
    (sampleWine2Remote.id = sampleWine2.id ∧ sampleWine2Remote ≠ sampleWine2 ∧
      sampleWine.id ≠ sampleWine2.id ∧ sampleWine.id ≠ sampleWine3.id ∧
      sampleWine2.id ≠ sampleWine3.id) ∧
    (mergeWines [sampleWine, sampleWine2] [sampleWine2Remote, sampleWine3]).wines.Perm
      [sampleWine2Remote, sampleWine3, sampleWine] ∧
    (mergeWines [sampleWine, sampleWine2] [sampleWine2Remote, sampleWine3]).pushed
      = [sampleWine] ∧
    List.Sorted byAddedAtDesc
      (mergeWines [sampleWine, sampleWine2] [sampleWine2Remote, sampleWine3]).wines ∧
    (mergeWines [sampleWine, sampleWine2] [sampleWine2Remote, sampleWine3]).savedLocal
      = (mergeWines [sampleWine, sampleWine2] [sampleWine2Remote, sampleWine3]).wines := by
  refine ⟨⟨by decide, by decide, by decide, by decide, by decide⟩, ?_⟩
  exact mergeWines_union_policy sampleWine sampleWine2 sampleWine2Remote sampleWine3
    (by decide) (by decide) (by decide) (by decide) (by decide)

/-! ## Archive lifecycle (v2): `confirmArchive`, `pushToArchive`,
`deleteFromArchive`, `restoreWineFromArchive`

`confirmArchive` (lines 2622–2643) builds
`{...wine, rating, rebuy, archiveNotes, archivedAt}` from the record found
by `this.currentWineId`, calls `pushToArchive` (unshift onto `this.archive`
and a remote `set` at `archive/${archivedWine.id}`), then
`deleteCurrentWine` (which filters the record's id out of `this.wines`).
`restoreWineFromArchive` (lines 2897–2938) builds a brand-new record with
`id: Date.now().toString()`, `quantity: 1`, `addedAt: new Date().toISOString()`
and the archived record's descriptive fields, unshifts it onto `this.wines`,
and calls `deleteFromArchive` (filter by id plus a remote `remove`). -/

/-- `archiveNotes: document.getElementById('archiveNotes').value.trim() || null`. -/
def trimOrNone (s : String) : Option String :=
  if s.trim = "" then none else some s.trim

/-- `pushToArchive` (v2, lines 1567–1577): unshift the archive entry and
write it remotely keyed by `archivedWine.id`. Returns the new archive list
and the remote write (key, record). -/
def pushToArchive (archive : List ArchivedWine) (archivedWine : ArchivedWine) :
    List ArchivedWine × (String × ArchivedWine) :=
  (archivedWine :: archive, (archivedWine.toWine.id, archivedWine))

/-- The effect of `deleteCurrentWine` on `this.wines`:
`this.wines = this.wines.filter(w => w.id !== wineIdToDelete)`. -/
def deleteCurrentWineFromList (wines : List Wine) (wineIdToDelete : String) :
    List Wine :=
  wines.filter (fun w => w.id ≠ wineIdToDelete)

/-- `deleteFromArchive` (v2, lines 1579–1589) on `this.archive`:
`this.archive = this.archive.filter(w => w.id !== archiveId)`. -/
def deleteFromArchiveList (archive : List ArchivedWine) (archiveId : String) :
    List ArchivedWine :=
  archive.filter (fun w => w.toWine.id ≠ archiveId)

/-- Outcome of `confirmArchive`: new active collection, new archive, and
the remote archive writes (key, record) performed. -/
structure ConfirmArchiveResult where
  wines : List Wine
  archive : List ArchivedWine
  remoteArchiveWrites : List (String × ArchivedWine)
deriving DecidableEq, Repr

/-- `confirmArchive` (v2, lines 2622–2643). -/
def confirmArchive (wines : List Wine) (archive : List ArchivedWine)
    (currentWineId : String) (archiveRating : Nat) (archiveRebuy : Option String)
    (archiveNotesInput : String) (now : Nat) : ConfirmArchiveResult :=
  match wines.find? (fun w => w.id = currentWineId) with
  | none => { wines := wines, archive := archive, remoteArchiveWrites := [] }
  | some wine =>
    let archivedWine : ArchivedWine :=
      { toWine := wine
        rating := archiveRating
        rebuy := archiveRebuy
        archiveNotes := trimOrNone archiveNotesInput
        archivedAt := now }
    let pushed := pushToArchive archive archivedWine
    { wines := deleteCurrentWineFromList wines currentWineId
      archive := pushed.1
      remoteArchiveWrites := [pushed.2] }

/-- Outcome of `restoreWineFromArchive`: new active collection and archive. -/
structure RestoreResult where
  wines : List Wine
  archive : List ArchivedWine
deriving DecidableEq, Repr

/-- `restoreWineFromArchive` (v2, lines 2897–2938). `nowMs` models
`Date.now()` (the new id is its decimal string) and `nowIso` models
`new Date().toISOString()` (the new `addedAt`). -/
def restoreWineFromArchive (wines : List Wine) (archive : List ArchivedWine)
    (currentArchiveId : String) (nowMs nowIso : Nat) : RestoreResult :=
  match archive.find? (fun w => w.toWine.id = currentArchiveId) with
  | none => { wines := wines, archive := archive }
  | some archivedWine =>
    let restoredWine : Wine :=
      { id := toString nowMs
        name := archivedWine.toWine.name
        producer := archivedWine.toWine.producer
        type := archivedWine.toWine.type
        year := archivedWine.toWine.year
        region := archivedWine.toWine.region
        grape := archivedWine.toWine.grape
        boldness := archivedWine.toWine.boldness
        tannins := archivedWine.toWine.tannins
        acidity := archivedWine.toWine.acidity
        price := archivedWine.toWine.price
        quantity := 1
        store := archivedWine.toWine.store
        notes := archivedWine.toWine.notes
        image := archivedWine.toWine.image
        addedAt := nowIso }
    { wines := restoredWine :: wines
      archive := deleteFromArchiveList archive currentArchiveId }

/-! ## Claim C7 -/

/-- C7. Archiving the active record `R` (found by the current id) removes
`R`'s id from the active collection and adds exactly one new archive record
— unshifted onto the archive — whose catalog fields are exactly `R`'s,
plus the chosen rating, rebuy decision, trimmed archive notes, and the
`archivedAt` timestamp. -/
theorem confirmArchive_moves_record (wines : List Wine) (archive : List ArchivedWine)
    (R : Wine) (cid : String) (rating : Nat) (rebuy : Option String)
    (notesInput : String) (now : Nat)
    (hfind : wines.find? (fun w => w.id = cid) = some R) :
    (∀ w ∈ (confirmArchive wines archive cid rating rebuy notesInput now).wines,
      w.id ≠ R.id) ∧
    ∃ a : ArchivedWine,
      (confirmArchive wines archive cid rating rebuy notesInput now).archive
        = a :: archive ∧
      a.toWine = R ∧ a.rating = rating ∧ a.rebuy = rebuy ∧
      a.archiveNotes = trimOrNone notesInput ∧ a.archivedAt = now := by
  have hid : R.id = cid := by
    have := List.find?_some hfind
    simpa using this
  constructor
  · intro w hw
    simp only [confirmArchive, hfind, deleteCurrentWineFromList] at hw
    have := List.of_mem_filter hw
    rw [hid]
    simpa using this
  · refine ⟨⟨R, rating, rebuy, trimOrNone notesInput, now⟩, ?_, rfl, rfl, rfl, rfl, rfl⟩
    simp [confirmArchive, hfind, pushToArchive]

/-- Concrete archived record for the witnesses. -/
def sampleArchived : ArchivedWine :=
  { toWine := sampleWine, rating := 4, rebuy := some "yes"
    archiveNotes := none, archivedAt := 1700000100000 }

/-- Witness for C7 on a concrete one-record collection. -/
theorem confirmArchive_moves_record_witness :
    [sampleWine].find? (fun w => w.id = "1700000000000") = some sampleWine ∧
    ((∀ w ∈ (confirmArchive [sampleWine] [] "1700000000000" 4 (some "yes") "" 1700000100000).wines,
      w.id ≠ sampleWine.id) ∧
    ∃ a : ArchivedWine,
      (confirmArchive [sampleWine] [] "1700000000000" 4 (some "yes") "" 1700000100000).archive
        = a :: [] ∧
      a.toWine = sampleWine ∧ a.rating = 4 ∧ a.rebuy = some "yes" ∧
      a.archiveNotes = trimOrNone "" ∧ a.archivedAt = 1700000100000) :=
  ⟨by decide, confirmArchive_moves_record [sampleWine] [] sampleWine "1700000000000"
    4 (some "yes") "" 1700000100000 (by decide)⟩

/-! ## Claim C9 -/

/-- C9. The archive record created by `confirmArchive` keeps the id of the
catalog record it was created from (the spread copies it; the added fields
do not include `id`), and the remote archive entry is keyed by that same
id. -/
theorem confirmArchive_preserves_id (wines : List Wine) (archive : List ArchivedWine)
    (R : Wine) (cid : String) (rating : Nat) (rebuy : Option String)
    (notesInput : String) (now : Nat)
    (hfind : wines.find? (fun w => w.id = cid) = some R) :
    ∃ a : ArchivedWine,
      (confirmArchive wines archive cid rating rebuy notesInput now).archive
        = a :: archive ∧
      a.toWine.id = R.id ∧
      (confirmArchive wines archive cid rating rebuy notesInput now).remoteArchiveWrites
        = [(R.id, a)] := by
  refine ⟨⟨R, rating, rebuy, trimOrNone notesInput, now⟩, ?_, rfl, ?_⟩ <;>
    simp [confirmArchive, hfind, pushToArchive]

/-- Witness for C9 on the same concrete collection. -/
theorem confirmArchive_preserves_id_witness :
    [sampleWine].find? (fun w => w.id = "1700000000000") = some sampleWine ∧
    ∃ a : ArchivedWine,
      (confirmArchive [sampleWine] [] "1700000000000" 4 (some "yes") "" 1700000100000).archive
        = a :: [] ∧
      a.toWine.id = sampleWine.id ∧
      (confirmArchive [sampleWine] [] "1700000000000" 4 (some "yes") "" 1700000100000).remoteArchiveWrites
        = [(sampleWine.id, a)] :=
  ⟨by decide, confirmArchive_preserves_id [sampleWine] [] sampleWine "1700000000000"
    4 (some "yes") "" 1700000100000 (by decide)⟩

/-! ## Claim C8 -/

/-- C8. Restoring the archive record `A` adds to the active collection a
new catalog record whose id is the freshly generated `Date.now()` string —
different from `A`'s id — and whose `addedAt` is freshly generated — not
`A`'s original `addedAt` — and removes `A` from the archive. -/
theorem restoreWine_new_identity (wines : List Wine) (archive : List ArchivedWine)
    (Aw : ArchivedWine) (cid : String) (nowMs nowIso : Nat)
    (hfind : archive.find? (fun w => w.toWine.id = cid) = some Aw)
    (hIdFresh : toString nowMs ≠ Aw.toWine.id)
    (hAtFresh : nowIso ≠ Aw.toWine.addedAt) :
    ∃ r : Wine,
      (restoreWineFromArchive wines archive cid nowMs nowIso).wines = r :: wines ∧
      r.id = toString nowMs ∧ r.id ≠ Aw.toWine.id ∧
      r.addedAt = nowIso ∧ r.addedAt ≠ Aw.toWine.addedAt ∧
      ∀ a ∈ (restoreWineFromArchive wines archive cid nowMs nowIso).archive,
        a.toWine.id ≠ Aw.toWine.id := by
  have hid : Aw.toWine.id = cid := by
    have := List.find?_some hfind
    simpa using this
  simp only [restoreWineFromArchive, hfind]
  refine ⟨_, rfl, rfl, hIdFresh, rfl, hAtFresh, ?_⟩
  intro a ha
  simp only [deleteFromArchiveList] at ha
  have := List.of_mem_filter ha
  rw [hid]
  simpa using this

/-- Witness for C8: restoring the concrete archived record at a later
clock reading. -/
theorem restoreWine_new_identity_witness :
    [sampleArchived].find? (fun w => w.toWine.id = "1700000000000") = some sampleArchived ∧
    toString 1700000200000 ≠ sampleArchived.toWine.id ∧
    (1700000200000 : Nat) ≠ sampleArchived.toWine.addedAt ∧
    ∃ r : Wine,
      (restoreWineFromArchive [] [sampleArchived] "1700000000000"
          1700000200000 1700000200000).wines = r :: [] ∧
      r.id = toString 1700000200000 ∧ r.id ≠ sampleArchived.toWine.id ∧
      r.addedAt = 1700000200000 ∧ r.addedAt ≠ sampleArchived.toWine.addedAt ∧
      ∀ a ∈ (restoreWineFromArchive [] [sampleArchived] "1700000000000"
          1700000200000 1700000200000).archive,
        a.toWine.id ≠ sampleArchived.toWine.id :=
  ⟨by decide, by decide, by decide,
    restoreWine_new_identity [] [sampleArchived] sampleArchived "1700000000000"
      1700000200000 1700000200000 (by decide) (by decide) (by decide)⟩

/-! ## Claim C10 -/

/-- C10. For every archive record, the catalog record produced by restore
has quantity exactly 1, regardless of the quantity stored on the archived
record. -/
theorem restoreWine_quantity_one (wines : List Wine) (archive : List ArchivedWine)
    (Aw : ArchivedWine) (cid : String) (nowMs nowIso : Nat)
    (hfind : archive.find? (fun w => w.toWine.id = cid) = some Aw) :
    ∃ r : Wine,
      (restoreWineFromArchive wines archive cid nowMs nowIso).wines = r :: wines ∧
      r.quantity = 1 := by
  simp only [restoreWineFromArchive, hfind]
  exact ⟨_, rfl, rfl⟩

/-- Witness for C10: the concrete archived record stores quantity 1 via its
catalog copy, but the theorem applies whatever that quantity is — here we
restore an archived record whose stored quantity is 7. -/
theorem restoreWine_quantity_one_witness :
    [{ sampleArchived with toWine := { sampleWine with quantity := 7 } }].find?
        (fun w => w.toWine.id = "1700000000000")
      = some { sampleArchived with toWine := { sampleWine with quantity := 7 } } ∧
    ∃ r : Wine,
      (restoreWineFromArchive []
          [{ sampleArchived with toWine := { sampleWine with quantity := 7 } }]
          "1700000000000" 1700000200000 1700000200000).wines = r :: [] ∧
      r.quantity = 1 :=
  ⟨by decide, restoreWine_quantity_one []
    [{ sampleArchived with toWine := { sampleWine with quantity := 7 } }]
    { sampleArchived with toWine := { sampleWine with quantity := 7 } }
    "1700000000000" 1700000200000 1700000200000 (by decide)⟩
